import Mathlib

set_option maxRecDepth 40000

/-!
# Shallow embedding of the zlog logging library (github.com/chenzanhong/zlog)

This file embeds, in Lean 4, the configuration / construction / dispatch
pipeline of the zlog structured-logging facade, and proves (or refutes)
the testable properties stated for it.

Conventions of the embedding:
* Go `type Level string` (level.go) is embedded as `Level := String`;
  string comparison in Go is byte-wise lexicographic, embedded as an
  explicit comparison on the character lists.
* `zapcore.Level` is an integer type (`Debug = -1 .. Fatal = 5`), embedded
  as `Int`.
* Filesystem effects (`os.Getwd`, `os.MkdirAll`) are modelled by an
  explicit environment `FsEnv`; fallible functions return `Except`-style
  results with an explicit error inductive mirroring the Go `fmt.Errorf`
  messages.
* The process-global mutable state (`globalLogger`, `globalSugar`, the
  `sync.Once` guard, and the hook registry of hook.go) is modelled as an
  explicit `GlobalState` record threaded through the operations, calls
  being interleaved atomically (the granularity established by
  `sync.Once` / the registry mutex).
-/

/-- zapcore.Level: an integer severity, Debug = -1 through Fatal = 5. -/
abbrev ZapLevel := Int

def zapDebugLevel : ZapLevel := -1

def zapInfoLevel : ZapLevel := 0

def zapWarnLevel : ZapLevel := 1

def zapErrorLevel : ZapLevel := 2

def zapDPanicLevel : ZapLevel := 3

def zapPanicLevel : ZapLevel := 4

def zapFatalLevel : ZapLevel := 5

/-- Go byte-wise lexicographic string comparison (`a < b`), written on
the character lists: UTF-8 byte order coincides with code-point order, so
this agrees with Go on every string. -/
def goStrLtChars : List Char → List Char → Bool
  | [], [] => false
  | [], _ :: _ => true
  | _ :: _, [] => false
  | a :: as, b :: bs =>
    if a.toNat < b.toNat then true
    else if b.toNat < a.toNat then false
    else goStrLtChars as bs

/-- Go `a < b` on strings. -/
def goStrLt (a b : String) : Bool := goStrLtChars a.data b.data

/-- level.go: `type Level string` — log level, hiding zapcore.Level internally. -/
abbrev Level := String

def DebugLevel : Level := "debug"

def InfoLevel : Level := "info"

def WarnLevel : Level := "warn"

def ErrorLevel : Level := "error"

def PanicLevel : Level := "panic"

def FatalLevel : Level := "fatal"

/-- level.go `Valid`: checks if the level is one of the six predefined levels. -/
def Level.valid (l : Level) : Bool :=
  l = DebugLevel || l = InfoLevel || l = WarnLevel || l = ErrorLevel ||
    l = PanicLevel || l = FatalLevel

/-- Error result of `Level.UnmarshalText` (Go: `fmt.Errorf("invalid log level: %q", text)`). -/
inductive LevelParseErr where
  | invalidLevel (text : String) : LevelParseErr
deriving DecidableEq, Repr

/-- Go `strings.ToLower`: the Unicode simple lowercase mapping applied to
each rune. It is embedded exactly on every code point whose simple
lowercase mapping is ASCII — the letters A-Z, U+0130 (LATIN CAPITAL
LETTER I WITH DOT ABOVE, which Go lowercases to "i") and U+212A (KELVIN
SIGN, lowercased to "k") — and leaves every other code point in place.
Any other code point either is unchanged by Go as well or lowercases to
a non-ASCII character, so on both sides the string then fails to equal
any of the all-ASCII recognized level names below: every comparison and
membership test performed on the result agrees with Go for every input
string. -/
def goToLower (s : String) : String :=
  String.mk (s.data.map (fun c =>
    if c.toNat ≥ 65 ∧ c.toNat ≤ 90 then Char.ofNat (c.toNat + 32)
    else if c.toNat = 304 then Char.ofNat 105
    else if c.toNat = 8490 then Char.ofNat 107
    else c))

/-- level.go `UnmarshalText`: parse a level from text (case-insensitive,
accepting the six full names plus aliases `d,i,w,e,p,f,warning,err`).
The Go method mutates its receiver and returns an error; we return the
parsed level or the error. -/
def Level.UnmarshalText (text : String) : Except LevelParseErr Level :=
  let levelStr := goToLower text
  if levelStr = "debug" ∨ levelStr = "d" then .ok DebugLevel
  else if levelStr = "info" ∨ levelStr = "i" then .ok InfoLevel
  else if levelStr = "warn" ∨ levelStr = "warning" ∨ levelStr = "w" then .ok WarnLevel
  else if levelStr = "error" ∨ levelStr = "err" ∨ levelStr = "e" then .ok ErrorLevel
  else if levelStr = "panic" ∨ levelStr = "p" then .ok PanicLevel
  else if levelStr = "fatal" ∨ levelStr = "f" then .ok FatalLevel
  else .error (.invalidLevel text)

/-- level.go `MarshalText` (returns "info" as a safe default on an invalid level). -/
def Level.MarshalText (l : Level) : String :=
  if Level.valid l then l else "info"

/-- level.go `toZapCoreLevel` (internal use). -/
def Level.toZapCoreLevel (l : Level) : ZapLevel :=
  if l = DebugLevel then zapDebugLevel
  else if l = InfoLevel then zapInfoLevel
  else if l = WarnLevel then zapWarnLevel
  else if l = ErrorLevel then zapErrorLevel
  else if l = PanicLevel then zapPanicLevel
  else if l = FatalLevel then zapFatalLevel
  else zapInfoLevel

/-- level.go `fromZapCoreLevel`. -/
def Level.fromZapCoreLevel (l : ZapLevel) : Level :=
  if l = zapDebugLevel then DebugLevel
  else if l = zapInfoLevel then InfoLevel
  else if l = zapWarnLevel then WarnLevel
  else if l = zapErrorLevel then ErrorLevel
  else if l = zapPanicLevel then PanicLevel
  else if l = zapFatalLevel then FatalLevel
  else InfoLevel

/-- level.go `String`: human-readable level name (the identity on the
underlying string). -/
def Level.String (l : Level) : String := l

/-- config.go `LoggerConfig` (Level is the string-typed `Level`; the int
fields are Go `int`). -/
structure LoggerConfig where
  Level : Level
  Output : String
  Format : String
  FilePath : String
  MaxSize : Int
  MaxBackups : Int
  MaxAge : Int
  Compress : Bool
  Sampling : Bool
deriving DecidableEq, Repr

/-- Errors produced by `validate` / `NewLogger`, one constructor per
`fmt.Errorf` site in config.go / the logger constructor. -/
inductive BuildErr where
  /-- "FilePath is required when Output='file'" / "file path is required
  when output is 'file' or 'both'" -/
  | filePathRequired : BuildErr
  /-- "failed to get working directory: %w" -/
  | getwdFailed : BuildErr
  /-- "failed to create log directory %q: %w" -/
  | mkdirFailed (dir : String) : BuildErr
  /-- "no valid log output configured" -/
  | noValidOutput : BuildErr
deriving DecidableEq, Repr

/-- config.go `validate`: fills rotation defaults in place, then errors
iff a file-backed output has an empty FilePath. Returns the mutated
config together with the (optional) error. -/
def LoggerConfig.validate (c : LoggerConfig) : LoggerConfig × Option BuildErr :=
  let c := { c with MaxSize := if c.MaxSize ≤ 0 then 100 else c.MaxSize
                    MaxBackups := if c.MaxBackups < 0 then 10 else c.MaxBackups
                    MaxAge := if c.MaxAge < 0 then 30 else c.MaxAge }
  if (c.Output = "file" ∨ c.Output = "both") ∧ c.FilePath = "" then
    (c, some .filePathRequired)
  else
    (c, none)

/-- config.go `defaultConfig`. -/
def defaultConfig : LoggerConfig where
  Level := InfoLevel
  Output := "console"
  Format := "console"
  FilePath := ""
  MaxSize := 100
  MaxBackups := 10
  MaxAge := 30
  Compress := true
  Sampling := false

/-- Filesystem environment for the effects `NewLogger` performs
(`os.Getwd`, `os.MkdirAll`): `getwd` is the working directory when
resolution succeeds, `mkdirOk d` tells whether creating directory `d`
succeeds. -/
structure FsEnv where
  getwd : Option String
  mkdirOk : String → Bool

/-- filepath.IsAbs (Unix): the path starts with a slash. -/
def isAbs (p : String) : Bool :=
  match p.data with
  | c :: _ => c = '/'
  | [] => false

/-- filepath.Join of the working directory and a relative path (path
cleaning is irrelevant to every property below). -/
def joinPath (wd p : String) : String := wd ++ "/" ++ p

/-- filepath.Dir: everything before the final separator (`"."` when there
is none). Precision beyond this does not matter: the directory is only
fed to `FsEnv.mkdirOk`. -/
def dirOf (p : String) : String :=
  if p.data.contains '/' then
    String.mk (((p.data.reverse.dropWhile (fun c => c ≠ '/')).drop 1).reverse)
  else "."

/-- Destination of a sink: the locked stdout stream or the rotating file
writer. -/
inductive Dest where
  | console : Dest
  | file : Dest
deriving DecidableEq, Repr

/-- Encoder attached to a sink: `zapcore.NewJSONEncoder` or the colorized
`zapcore.NewConsoleEncoder`. -/
inductive Encoding where
  | json : Encoding
  | consoleColor : Encoding
deriving DecidableEq, Repr

/-- lumberjack.Logger rotating-writer configuration, as filled in by
`NewLogger` for the file sink. -/
structure LumberjackCfg where
  Filename : String
  MaxSize : Int
  MaxBackups : Int
  MaxAge : Int
  Compress : Bool
deriving DecidableEq, Repr

/-- One `zapcore.Core` as built by `NewLogger`: destination, encoder, and
minimum admitted level. File sinks carry their rotating-writer config. -/
structure Sink where
  dest : Dest
  encoding : Encoding
  threshold : ZapLevel
  writer : Option LumberjackCfg
deriving DecidableEq, Repr

/-- The arguments `NewLogger` passes to `zapcore.NewSamplerWithOptions`
when `cfg.Sampling` is set. -/
structure SamplerParams where
  tickSeconds : Nat
  first : Nat
  thereafter : Nat
deriving DecidableEq, Repr

/-- The result of `NewLogger`: the ordered sink list of the `NewTee` core
plus the sampler wrapper parameters when sampling is enabled. -/
structure BuiltLogger where
  sinks : List Sink
  sampler : Option SamplerParams
deriving DecidableEq, Repr

/-- `NewLogger` step: normalize the log level. This is Go
`if cfg.Level < DebugLevel || cfg.Level > FatalLevel` — a byte-wise
lexicographic comparison, since `Level` is a string type. -/
def normalizeLevel (cfg : LoggerConfig) : LoggerConfig :=
  if goStrLt cfg.Level DebugLevel || goStrLt FatalLevel cfg.Level then
    { cfg with Level := InfoLevel }
  else cfg

/-- `NewLogger` step: normalize the output destination (unrecognized
values fall back to "console"). -/
def normalizeOutput (cfg : LoggerConfig) : LoggerConfig :=
  if cfg.Output = "console" ∨ cfg.Output = "file" ∨ cfg.Output = "both" then cfg
  else { cfg with Output := "console" }

/-- `NewLogger` step: normalize the format (unrecognized values fall back
to "console"). -/
def normalizeFormat (cfg : LoggerConfig) : LoggerConfig :=
  if cfg.Format ≠ "json" ∧ cfg.Format ≠ "console" then
    { cfg with Format := "console" }
  else cfg

/-- `NewLogger` step: apply rotation defaults. -/
def rotationDefaults (cfg : LoggerConfig) : LoggerConfig :=
  { cfg with MaxSize := if cfg.MaxSize ≤ 0 then 100 else cfg.MaxSize
             MaxBackups := if cfg.MaxBackups < 0 then 10 else cfg.MaxBackups
             MaxAge := if cfg.MaxAge < 0 then 30 else cfg.MaxAge }

/-- `NewLogger` step: resolve a relative file path against the working
directory. -/
def resolvePath (env : FsEnv) (cfg : LoggerConfig) : Except BuildErr LoggerConfig :=
  if cfg.FilePath ≠ "" ∧ ¬ isAbs cfg.FilePath then
    match env.getwd with
    | none => .error .getwdFailed
    | some wd => .ok { cfg with FilePath := joinPath wd cfg.FilePath }
  else .ok cfg

/-- `NewLogger` step: build the core list — a console core when
`output ∈ {console, both}` (JSON or colorized console encoder per
`format`), then a file core when `output ∈ {file, both}` (always JSON,
through the lumberjack rotating writer); both at threshold
`cfg.Level.toZapCoreLevel`. -/
def buildCores (cfg : LoggerConfig) : List Sink :=
  let zapLevel := Level.toZapCoreLevel cfg.Level
  (if cfg.Output = "console" ∨ cfg.Output = "both" then
    [{ dest := .console
       encoding := if cfg.Format = "json" then .json else .consoleColor
       threshold := zapLevel
       writer := none }]
   else []) ++
  (if cfg.Output = "file" ∨ cfg.Output = "both" then
    [{ dest := .file
       encoding := .json
       threshold := zapLevel
       writer := some { Filename := cfg.FilePath, MaxSize := cfg.MaxSize,
                        MaxBackups := cfg.MaxBackups, MaxAge := cfg.MaxAge,
                        Compress := cfg.Compress } }]
   else [])

/-- The zlog logger constructor `NewLogger` (the variant taking a
`LoggerConfig` value): normalizes level/output/format, requires a file
path for file-backed output, applies rotation defaults, resolves the
file path, creates the log directory, builds the cores, errors when no
core resulted, and wraps with `NewSamplerWithOptions(core, time.Second,
100, 100)` when sampling is enabled. -/
def NewLogger (env : FsEnv) (config : LoggerConfig) : Except BuildErr BuiltLogger :=
  let cfg := normalizeFormat (normalizeOutput (normalizeLevel config))
  if (cfg.Output = "file" ∨ cfg.Output = "both") ∧ cfg.FilePath = "" then
    .error .filePathRequired
  else
    let cfg := rotationDefaults cfg
    match resolvePath env cfg with
    | .error e => .error e
    | .ok cfg =>
      if cfg.FilePath ≠ "" ∧ env.mkdirOk (dirOf cfg.FilePath) = false then
        .error (.mkdirFailed (dirOf cfg.FilePath))
      else
        let cores := buildCores cfg
        if cores.length = 0 then .error .noValidOutput
        else .ok { sinks := cores
                   sampler := if cfg.Sampling then
                       some { tickSeconds := 1, first := 100, thereafter := 100 }
                     else none }

/-- field.go `fieldType` tags. -/
inductive fieldType where
  | fieldAny | fieldString | fieldInt | fieldInt64 | fieldBool
  | fieldFloat64 | fieldDuration | fieldTime
deriving DecidableEq, Repr

/-- A Go value stored in a `Field` / passed as a key-value vararg
(`interface\x7b\x7d`). Payloads whose identity no property inspects
(floats, times, arbitrary boxed values) are collapsed to opaque tags. -/
inductive GoVal where
  | vstr (s : String) : GoVal
  | vint (i : Int) : GoVal
  | vbool (b : Bool) : GoVal
  | vother : GoVal
deriving DecidableEq, Repr

/-- field.go `Field`: zlog's own log field record (key, boxed value, kind
tag), named `LogField` here because Lean already uses `Field`. The typed
constructor functions (`String`, `Int`, ...) only pair a value with its
tag and are not needed by any property below. -/
structure LogField where
  key : String
  value : GoVal
  typ : fieldType
deriving DecidableEq, Repr

/-- hook.go `LogHook`: the registered callback. `id` identifies the
registration; `res` is what `OnLog` returns for given arguments (`some e`
= the error with text `e`). -/
structure LogHook where
  id : Nat
  res : Level → String → List LogField → Option String

/-- The payload a facade hands to the sink layer: typed fields, raw
key-value varargs (`*w` style), or a format string with args (`*f`).
`bound` is the field list a context-derived view attached with `With`
(empty for the plain facades). -/
inductive Payload where
  | fields (fs : List LogField) : Payload
  | kvs (bound : List LogField) (args : List GoVal) : Payload
  | formatted (bound : List LogField) (format : String) (args : List GoVal) : Payload
deriving DecidableEq, Repr

/-- Observable events of one log call, in order: a hook invocation, a
hook-error line printed to stderr, or an encoded record reaching a sink. -/
inductive Event where
  | hookCall (id : Nat) (level : Level) (msg : String) (fields : List LogField) : Event
  | hookErrReport (line : String) : Event
  | sinkWrite (dest : Dest) (level : Level) (msg : String) (payload : Payload) : Event
deriving DecidableEq, Repr

def Event.isHookCall : Event → Bool
  | .hookCall .. => true
  | _ => false

def Event.isSinkWrite : Event → Bool
  | .sinkWrite .. => true
  | _ => false

/-- The stderr line `fmt.Fprintf(os.Stderr, "[zlog] LogHook error: %v\n", err)`. -/
def hookErrLine (e : String) : String := "[zlog] LogHook error: " ++ e

/-- hook.go `executeHooks`: snapshot the registry (the RLock-guarded
copy), then invoke every hook in registration order; an error from a hook
is printed to stderr and the loop continues. Returns the event trace of
the loop. -/
def executeHooks (hooks : List LogHook) (zlogLevel : Level) (msg : String)
    (fields : List LogField) : List Event :=
  match hooks with
  | [] => []
  | h :: hs =>
    Event.hookCall h.id zlogLevel msg fields ::
      ((match h.res zlogLevel msg fields with
        | some e => [Event.hookErrReport (hookErrLine e)]
        | none => []) ++ executeHooks hs zlogLevel msg fields)

/-- Per-message, per-window counters of zap's sampler core. -/
structure SamplerState where
  windowStart : Nat
  counts : List (String × Nat)
deriving DecidableEq, Repr

def SamplerState.initial : SamplerState := { windowStart := 0, counts := [] }

def bumpCount (counts : List (String × Nat)) (msg : String) (n : Nat) :
    List (String × Nat) :=
  match counts with
  | [] => [(msg, n)]
  | (k, v) :: rest => if k = msg then (msg, n) :: rest else (k, v) :: bumpCount rest msg n

/-- Modelled from the spec: the sampler `zapcore.NewSamplerWithOptions
(core, time.Second, first, thereafter)` is external library code (not in
this repository); per the spec its policy is that the first `first`
records of a message per 1-second window pass unconditionally, and of
the rest one in every `thereafter` passes. `now` is the current second;
returns whether this record is admitted plus the updated counters. -/
def samplerStep (p : SamplerParams) (ss : SamplerState) (now : Nat) (msg : String) :
    Bool × SamplerState :=
  let ss := if now ≠ ss.windowStart then { windowStart := now, counts := [] } else ss
  let n := (match ss.counts.lookup msg with | some v => v | none => 0) + 1
  let passes := n ≤ p.first || (n - p.first) % p.thereafter = 0
  (passes, { ss with counts := bumpCount ss.counts msg n })

/-- The number of records admitted by the sampler among `k` identical
calls (same message) within one window. -/
def admittedCount (p : SamplerParams) (k : Nat) : Nat :=
  (go k SamplerState.initial).1
where
  go : Nat → SamplerState → Nat × SamplerState
    | 0, ss => (0, ss)
    | k + 1, ss =>
      let (passes, ss) := samplerStep p ss 0 "m"
      let (c, ss) := go k ss
      ((if passes then 1 else 0) + c, ss)

/-- A record reaching the tee core is written to every sink whose
threshold admits its level (zap: a core is enabled for `lvl` iff
`threshold ≤ lvl`). -/
def writeToSinks (sinks : List Sink) (level : Level) (msg : String)
    (payload : Payload) : List Event :=
  (sinks.filter (fun s => s.threshold ≤ Level.toZapCoreLevel level)).map
    (fun s => Event.sinkWrite s.dest level msg payload)

/-- One write through a built logger: when the sampler wrapper is present
it first decides admission (updating its counters); an admitted (or
unsampled) record then goes to every enabled sink. -/
def coreDeliver (lg : BuiltLogger) (ss : SamplerState) (now : Nat) (level : Level)
    (msg : String) (payload : Payload) : List Event × SamplerState :=
  match lg.sampler with
  | none => (writeToSinks lg.sinks level msg payload, ss)
  | some p =>
    let (passes, ss) := samplerStep p ss now msg
    ((if passes then writeToSinks lg.sinks level msg payload else []), ss)

/-- The process-global mutable state of the package: the `globalLogger` /
`globalSugar` slots and the `sync.Once` guard (both logger files), the
hook registry (hook.go), the filesystem environment implicit builds run
against, the sampler counters of the installed logger, and an
instrumentation counter of how many times `NewLogger` has executed. -/
structure GlobalState where
  globalLogger : Option BuiltLogger
  globalSugar : Option BuiltLogger
  onceDone : Bool
  hooks : List LogHook
  env : FsEnv
  sampState : SamplerState
  builds : Nat

/-- The state of a fresh process: empty slots, unfired `sync.Once`, the
given registered hooks. -/
def initialState (env : FsEnv) (hooks : List LogHook) : GlobalState where
  globalLogger := none
  globalSugar := none
  onceDone := false
  hooks := hooks
  env := env
  sampState := SamplerState.initial
  builds := 0

/-- hook.go `RegisterLogHook`: append under the registry lock. -/
def RegisterLogHook (st : GlobalState) (h : LogHook) : GlobalState :=
  { st with hooks := st.hooks ++ [h] }

/-- `InitLogger`: inside `once.Do`, run `NewLogger(config)`; on success
install the logger and its sugar; the error (if any) is returned. A call
after the `Once` has fired does nothing and returns nil. -/
def InitLogger (st : GlobalState) (config : LoggerConfig) :
    GlobalState × Option BuildErr :=
  if st.onceDone then (st, none)
  else
    match NewLogger st.env config with
    | .ok lg =>
      ({ st with globalLogger := some lg, globalSugar := some lg,
                 onceDone := true, builds := st.builds + 1 }, none)
    | .error e =>
      ({ st with onceDone := true, builds := st.builds + 1 }, some e)

/-- `Logger`: return the global logger; when the slot is still empty, run
`once.Do` building from `defaultConfig` (the error is discarded with
`_`). When the `Once` was already consumed by a failed `InitLogger`, the
slot stays empty and nil is returned. -/
def Logger (st : GlobalState) : GlobalState × Option BuiltLogger :=
  if st.globalLogger = none then
    if st.onceDone then (st, st.globalLogger)
    else
      match NewLogger st.env defaultConfig with
      | .ok lg =>
        ({ st with globalLogger := some lg, globalSugar := some lg,
                   onceDone := true, builds := st.builds + 1 }, some lg)
      | .error _ =>
        ({ st with onceDone := true, builds := st.builds + 1 }, none)
  else (st, st.globalLogger)

/-- `Sugar`: trigger initialization via `Logger()`, then return the
global sugared logger. -/
def Sugar (st : GlobalState) : GlobalState × Option BuiltLogger :=
  let st1 := (Logger st).1
  (st1, st1.globalSugar)

/-- Outcome of one facade call: the state afterwards, the ordered event
trace, and whether the call crashed by calling a method on a nil logger
(the nil-pointer dereference that occurs when the global slot is empty).
Deliberate `Panic`/`Fatal` process control after a successful write is
the logging library's contract and is not folded into `crashed`. -/
structure CallResult where
  state : GlobalState
  trace : List Event
  crashed : Bool

/-- The sink half of a typed-field or sugared call: resolve the logger
via `Logger()` / `Sugar()` (triggering implicit initialization), then
write through the core. A `none` logger means the subsequent method call
dereferences nil. `viaSugar` selects which accessor the facade used. -/
def deliverPart (st : GlobalState) (viaSugar : Bool) (now : Nat) (level : Level)
    (msg : String) (payload : Payload) : CallResult :=
  let (st1, lgOpt) := if viaSugar then Sugar st else Logger st
  match lgOpt with
  | none => { state := st1, trace := [], crashed := true }
  | some lg =>
    let (evs, ss) := coreDeliver lg st1.sampState now level msg payload
    { state := { st1 with sampState := ss }, trace := evs, crashed := false }

/-- zlog.go `logWithFields`: run `executeHooks` first, then resolve
`Logger()` and write the typed fields through it. -/
def logWithFields (st : GlobalState) (now : Nat) (level : Level) (msg : String)
    (fields : List LogField) : CallResult :=
  let hookEvs := executeHooks st.hooks level msg fields
  let r := deliverPart st false now level msg (.fields fields)
  { r with trace := hookEvs ++ r.trace }

/-- zlog.go key-value facades (`Sugar().Debugw(msg, keysAndValues...)`
and siblings): no hook dispatch, the raw varargs go to the sugared
logger. -/
def sugarLogw (st : GlobalState) (now : Nat) (level : Level) (msg : String)
    (keysAndValues : List GoVal) : CallResult :=
  deliverPart st true now level msg (.kvs [] keysAndValues)

/-- zlog.go printf facades (`Sugar().Debugf(format, args...)` and
siblings): no hook dispatch, the format string and args go to the
sugared logger. -/
def sugarLogf (st : GlobalState) (now : Nat) (level : Level) (format : String)
    (args : List GoVal) : CallResult :=
  deliverPart st true now level format (.formatted [] format args)

def Zlog.Debug (st : GlobalState) (now : Nat) (msg : String)
    (fields : List LogField) : CallResult := logWithFields st now DebugLevel msg fields

def Zlog.Info (st : GlobalState) (now : Nat) (msg : String)
    (fields : List LogField) : CallResult := logWithFields st now InfoLevel msg fields

def Zlog.Warn (st : GlobalState) (now : Nat) (msg : String)
    (fields : List LogField) : CallResult := logWithFields st now WarnLevel msg fields

def Zlog.Error (st : GlobalState) (now : Nat) (msg : String)
    (fields : List LogField) : CallResult := logWithFields st now ErrorLevel msg fields

def Zlog.Panic (st : GlobalState) (now : Nat) (msg : String)
    (fields : List LogField) : CallResult := logWithFields st now PanicLevel msg fields

def Zlog.Fatal (st : GlobalState) (now : Nat) (msg : String)
    (fields : List LogField) : CallResult := logWithFields st now FatalLevel msg fields

def Zlog.Debugw (st : GlobalState) (now : Nat) (msg : String)
    (kvs : List GoVal) : CallResult := sugarLogw st now DebugLevel msg kvs

def Zlog.Infow (st : GlobalState) (now : Nat) (msg : String)
    (kvs : List GoVal) : CallResult := sugarLogw st now InfoLevel msg kvs

def Zlog.Warnw (st : GlobalState) (now : Nat) (msg : String)
    (kvs : List GoVal) : CallResult := sugarLogw st now WarnLevel msg kvs

def Zlog.Errorw (st : GlobalState) (now : Nat) (msg : String)
    (kvs : List GoVal) : CallResult := sugarLogw st now ErrorLevel msg kvs

def Zlog.Panicw (st : GlobalState) (now : Nat) (msg : String)
    (kvs : List GoVal) : CallResult := sugarLogw st now PanicLevel msg kvs

def Zlog.Fatalw (st : GlobalState) (now : Nat) (msg : String)
    (kvs : List GoVal) : CallResult := sugarLogw st now FatalLevel msg kvs

def Zlog.Debugf (st : GlobalState) (now : Nat) (format : String)
    (args : List GoVal) : CallResult := sugarLogf st now DebugLevel format args

def Zlog.Infof (st : GlobalState) (now : Nat) (format : String)
    (args : List GoVal) : CallResult := sugarLogf st now InfoLevel format args

def Zlog.Warnf (st : GlobalState) (now : Nat) (format : String)
    (args : List GoVal) : CallResult := sugarLogf st now WarnLevel format args

def Zlog.Errorf (st : GlobalState) (now : Nat) (format : String)
    (args : List GoVal) : CallResult := sugarLogf st now ErrorLevel format args

def Zlog.Panicf (st : GlobalState) (now : Nat) (format : String)
    (args : List GoVal) : CallResult := sugarLogf st now PanicLevel format args

def Zlog.Fatalf (st : GlobalState) (now : Nat) (format : String)
    (args : List GoVal) : CallResult := sugarLogf st now FatalLevel format args

/-- ctx.go: the ambient context value-bag restricted to the three
well-known keys. A value only counts when it is a string (the type
assertion) — absence is modelled as `none`. -/
structure GoContext where
  requestId : Option String
  userId : Option String
  traceId : Option String

/-- ctx.go `loggerWithContext` field extraction: each present, non-empty
string value becomes a `zap.String` field (modelled with the
`fieldString` tag). -/
def contextFields (ctx : GoContext) : List LogField :=
  (match ctx.requestId with
   | some s => if s ≠ "" then [⟨"request_id", .vstr s, .fieldString⟩] else []
   | none => []) ++
  (match ctx.userId with
   | some s => if s ≠ "" then [⟨"user_id", .vstr s, .fieldString⟩] else []
   | none => []) ++
  (match ctx.traceId with
   | some s => if s ≠ "" then [⟨"trace_id", .vstr s, .fieldString⟩] else []
   | none => [])

/-- ctx.go typed-field context facades (`DebugCtx` .. `FatalCtx`):
`loggerWithContext(ctx).Debug(msg, fields...)` — resolve `Logger()`,
derive the `With`-bound view, write with the context fields prepended.
No hook dispatch occurs on this path. -/
def ctxLog (st : GlobalState) (now : Nat) (ctx : GoContext) (level : Level)
    (msg : String) (fields : List LogField) : CallResult :=
  deliverPart st false now level msg (.fields (contextFields ctx ++ fields))

/-- ctx.go key-value context facades (`DebugwCtx` etc):
`sugarWithContext(ctx).Debugw(msg, keysAndValues...)` — resolve
`Logger()`, attach the context fields with `With`, emit the varargs
through the sugared view. No hook dispatch. -/
def ctxLogw (st : GlobalState) (now : Nat) (ctx : GoContext) (level : Level)
    (msg : String) (kvs : List GoVal) : CallResult :=
  deliverPart st false now level msg (.kvs (contextFields ctx) kvs)

/-- ctx.go printf context facades (`DebugfCtx` etc):
`sugarWithContext(ctx).Debugf(format, args...)`. No hook dispatch. -/
def ctxLogf (st : GlobalState) (now : Nat) (ctx : GoContext) (level : Level)
    (format : String) (args : List GoVal) : CallResult :=
  deliverPart st false now level format (.formatted (contextFields ctx) format args)

def Zlog.DebugCtx (st : GlobalState) (now : Nat) (ctx : GoContext) (msg : String)
    (fields : List LogField) : CallResult := ctxLog st now ctx DebugLevel msg fields

def Zlog.InfoCtx (st : GlobalState) (now : Nat) (ctx : GoContext) (msg : String)
    (fields : List LogField) : CallResult := ctxLog st now ctx InfoLevel msg fields

def Zlog.WarnCtx (st : GlobalState) (now : Nat) (ctx : GoContext) (msg : String)
    (fields : List LogField) : CallResult := ctxLog st now ctx WarnLevel msg fields

def Zlog.ErrorCtx (st : GlobalState) (now : Nat) (ctx : GoContext) (msg : String)
    (fields : List LogField) : CallResult := ctxLog st now ctx ErrorLevel msg fields

def Zlog.PanicCtx (st : GlobalState) (now : Nat) (ctx : GoContext) (msg : String)
    (fields : List LogField) : CallResult := ctxLog st now ctx PanicLevel msg fields

def Zlog.FatalCtx (st : GlobalState) (now : Nat) (ctx : GoContext) (msg : String)
    (fields : List LogField) : CallResult := ctxLog st now ctx FatalLevel msg fields

/-- The key-value facades of the later zlog.go variant (the second
document in src/zlog.go, lines 80-103): each runs
`executeHooks(level, msg, nil)` first — hooks get a nil field list — and
then `Sugar().Debugw(msg, keysAndValues...)` with the raw varargs. -/
def ZlogV2.logw (st : GlobalState) (now : Nat) (level : Level) (msg : String)
    (keysAndValues : List GoVal) : CallResult :=
  let hookEvs := executeHooks st.hooks level msg []
  let r := deliverPart st true now level msg (.kvs [] keysAndValues)
  { r with trace := hookEvs ++ r.trace }

def ZlogV2.Debugw (st : GlobalState) (now : Nat) (msg : String)
    (kvs : List GoVal) : CallResult := ZlogV2.logw st now DebugLevel msg kvs

def ZlogV2.Infow (st : GlobalState) (now : Nat) (msg : String)
    (kvs : List GoVal) : CallResult := ZlogV2.logw st now InfoLevel msg kvs

def ZlogV2.Warnw (st : GlobalState) (now : Nat) (msg : String)
    (kvs : List GoVal) : CallResult := ZlogV2.logw st now WarnLevel msg kvs

def ZlogV2.Errorw (st : GlobalState) (now : Nat) (msg : String)
    (kvs : List GoVal) : CallResult := ZlogV2.logw st now ErrorLevel msg kvs

def ZlogV2.Panicw (st : GlobalState) (now : Nat) (msg : String)
    (kvs : List GoVal) : CallResult := ZlogV2.logw st now PanicLevel msg kvs

def ZlogV2.Fatalw (st : GlobalState) (now : Nat) (msg : String)
    (kvs : List GoVal) : CallResult := ZlogV2.logw st now FatalLevel msg kvs

def Zlog.DebugwCtx (st : GlobalState) (now : Nat) (ctx : GoContext) (msg : String)
    (kvs : List GoVal) : CallResult := ctxLogw st now ctx DebugLevel msg kvs

def Zlog.InfowCtx (st : GlobalState) (now : Nat) (ctx : GoContext) (msg : String)
    (kvs : List GoVal) : CallResult := ctxLogw st now ctx InfoLevel msg kvs

def Zlog.WarnwCtx (st : GlobalState) (now : Nat) (ctx : GoContext) (msg : String)
    (kvs : List GoVal) : CallResult := ctxLogw st now ctx WarnLevel msg kvs

def Zlog.ErrorwCtx (st : GlobalState) (now : Nat) (ctx : GoContext) (msg : String)
    (kvs : List GoVal) : CallResult := ctxLogw st now ctx ErrorLevel msg kvs

def Zlog.PanicwCtx (st : GlobalState) (now : Nat) (ctx : GoContext) (msg : String)
    (kvs : List GoVal) : CallResult := ctxLogw st now ctx PanicLevel msg kvs

def Zlog.FatalwCtx (st : GlobalState) (now : Nat) (ctx : GoContext) (msg : String)
    (kvs : List GoVal) : CallResult := ctxLogw st now ctx FatalLevel msg kvs

def Zlog.DebugfCtx (st : GlobalState) (now : Nat) (ctx : GoContext) (format : String)
    (args : List GoVal) : CallResult := ctxLogf st now ctx DebugLevel format args

def Zlog.InfofCtx (st : GlobalState) (now : Nat) (ctx : GoContext) (format : String)
    (args : List GoVal) : CallResult := ctxLogf st now ctx InfoLevel format args

def Zlog.WarnfCtx (st : GlobalState) (now : Nat) (ctx : GoContext) (format : String)
    (args : List GoVal) : CallResult := ctxLogf st now ctx WarnLevel format args

def Zlog.ErrorfCtx (st : GlobalState) (now : Nat) (ctx : GoContext) (format : String)
    (args : List GoVal) : CallResult := ctxLogf st now ctx ErrorLevel format args

def Zlog.PanicfCtx (st : GlobalState) (now : Nat) (ctx : GoContext) (format : String)
    (args : List GoVal) : CallResult := ctxLogf st now ctx PanicLevel format args

def Zlog.FatalfCtx (st : GlobalState) (now : Nat) (ctx : GoContext) (format : String)
    (args : List GoVal) : CallResult := ctxLogf st now ctx FatalLevel format args

/-- The call sequences claim C4 ranges over: explicit initialization and
the `Logger`/`Sugar` resolvers. -/
inductive Op where
  | init (cfg : LoggerConfig) : Op
  | resolve : Op
  | sugarResolve : Op

/-- Execute one operation for its state effect. -/
def stepOp (st : GlobalState) : Op → GlobalState
  | .init cfg => (InitLogger st cfg).1
  | .resolve => (Logger st).1
  | .sugarResolve => (Sugar st).1

/-- Execute a sequence of operations. -/
def runOps (st : GlobalState) : List Op → GlobalState
  | [] => st
  | op :: ops => runOps (stepOp st op) ops

/-- A benign filesystem: working-directory resolution succeeds and every
directory can be created. Used for concrete evaluations. -/
def benignFs : FsEnv where
  getwd := some "/wd"
  mkdirOk := fun _ => true

/-- What `NewLogger` builds from `defaultConfig`: one colorized console
sink at the info threshold, no sampler. -/
def defaultBuilt : BuiltLogger where
  sinks := [{ dest := .console, encoding := .consoleColor,
              threshold := zapInfoLevel, writer := none }]
  sampler := none

/-- The stderr lines among an event trace. -/
def errReportsOf (t : List Event) : List String :=
  t.filterMap (fun e => match e with
    | .hookErrReport line => some line
    | _ => none)

/-- Check that an event is a sink write carrying exactly this payload. -/
def Event.sinkPayloadIs (p : Payload) : Event → Bool
  | .sinkWrite _ _ _ q => q = p
  | _ => false

/-- The recognized input set exactly as the claim words it: the six full
level names plus the case-insensitive one-letter aliases. (Definition
follows the claim text, for comparison against `Level.UnmarshalText`.) -/
def claimRecognized (s : String) : Bool :=
  ["debug", "info", "warn", "error", "panic", "fatal",
   "d", "i", "w", "e", "p", "f"].contains (goToLower s)

/-- The input set `Level.UnmarshalText` actually accepts: the claimed set
plus the extra aliases "warning" and "err". -/
def goRecognized (s : String) : Bool :=
  ["debug", "info", "warn", "error", "panic", "fatal",
   "warning", "err", "d", "i", "w", "e", "p", "f"].contains (goToLower s)

/-- A trivial hook (always succeeds), used in concrete scenarios. -/
def okHook : LogHook where
  id := 0
  res := fun _ _ _ => none

/-- Repeated identical `Info` calls: the concatenated trace of `k` calls
of `Zlog.Info st 0 "m" []`, each starting from the state the previous one
left. -/
def repeatInfo : GlobalState → Nat → List Event
  | _, 0 => []
  | st, k + 1 =>
    let r := Zlog.Info st 0 "m" []
    r.trace ++ repeatInfo r.state k

theorem normalizeLevel_fields (cfg : LoggerConfig) :
    (normalizeLevel cfg).Output = cfg.Output ∧
    (normalizeLevel cfg).Format = cfg.Format ∧
    (normalizeLevel cfg).FilePath = cfg.FilePath ∧
    (normalizeLevel cfg).Sampling = cfg.Sampling := by
  unfold normalizeLevel
  split <;> simp

theorem normalizeOutput_fields (cfg : LoggerConfig) :
    (normalizeOutput cfg).Level = cfg.Level ∧
    (normalizeOutput cfg).Format = cfg.Format ∧
    (normalizeOutput cfg).FilePath = cfg.FilePath ∧
    (normalizeOutput cfg).Sampling = cfg.Sampling := by
  unfold normalizeOutput
  split <;> simp

theorem normalizeFormat_fields (cfg : LoggerConfig) :
    (normalizeFormat cfg).Level = cfg.Level ∧
    (normalizeFormat cfg).Output = cfg.Output ∧
    (normalizeFormat cfg).FilePath = cfg.FilePath ∧
    (normalizeFormat cfg).Sampling = cfg.Sampling := by
  unfold normalizeFormat
  split <;> simp

theorem rotationDefaults_fields (cfg : LoggerConfig) :
    (rotationDefaults cfg).Level = cfg.Level ∧
    (rotationDefaults cfg).Output = cfg.Output ∧
    (rotationDefaults cfg).Format = cfg.Format ∧
    (rotationDefaults cfg).FilePath = cfg.FilePath ∧
    (rotationDefaults cfg).Sampling = cfg.Sampling := by
  unfold rotationDefaults
  simp

theorem normalizeOutput_valid (cfg : LoggerConfig) :
    (normalizeOutput cfg).Output = "console" ∨ (normalizeOutput cfg).Output = "file" ∨
      (normalizeOutput cfg).Output = "both" := by
  unfold normalizeOutput
  split
  case isTrue h => simpa using h
  case isFalse h => simp

theorem normalizeOutput_fileish (cfg : LoggerConfig)
    (h : (normalizeOutput cfg).Output = "file" ∨ (normalizeOutput cfg).Output = "both") :
    cfg.Output = (normalizeOutput cfg).Output := by
  unfold normalizeOutput at h ⊢
  by_cases hv : cfg.Output = "console" ∨ cfg.Output = "file" ∨ cfg.Output = "both"
  · rw [if_pos hv]
  · rw [if_neg hv] at h
    simp at h

theorem resolvePath_fields (env : FsEnv) (cfg cfg2 : LoggerConfig)
    (h : resolvePath env cfg = .ok cfg2) :
    cfg2.Level = cfg.Level ∧ cfg2.Output = cfg.Output ∧ cfg2.Format = cfg.Format ∧
      cfg2.Sampling = cfg.Sampling ∧ (cfg.FilePath = "" → cfg2.FilePath = "") := by
  unfold resolvePath at h
  split at h
  case isTrue hc =>
    cases hw : env.getwd with
    | none => rw [hw] at h; cases h
    | some wd =>
      rw [hw] at h
      cases h
      refine ⟨rfl, rfl, rfl, rfl, fun he => ?_⟩
      exact absurd he hc.1
  case isFalse => cases h; exact ⟨rfl, rfl, rfl, rfl, fun he => he⟩

theorem resolvePath_ok (env : FsEnv) (cfg : LoggerConfig) (hw : env.getwd.isSome) :
    ∃ cfg2, resolvePath env cfg = .ok cfg2 := by
  unfold resolvePath
  split
  case isTrue =>
    cases hg : env.getwd with
    | none => rw [hg] at hw; cases hw
    | some wd => exact ⟨_, rfl⟩
  case isFalse => exact ⟨_, rfl⟩

theorem buildCores_len (cfg : LoggerConfig)
    (h : cfg.Output = "console" ∨ cfg.Output = "file" ∨ cfg.Output = "both") :
    1 ≤ (buildCores cfg).length := by
  unfold buildCores
  rcases h with h | h | h <;> simp [h]

theorem buildCores_file_json (cfg : LoggerConfig) (s : Sink)
    (hs : s ∈ buildCores cfg) (hd : s.dest = .file) : s.encoding = .json := by
  unfold buildCores at hs
  rw [List.mem_append] at hs
  rcases hs with hs | hs
  · split at hs
    · simp at hs
      rw [hs] at hd
      cases hd
    · cases hs
  · split at hs
    · simp at hs
      rw [hs]
    · cases hs

theorem buildCores_thresholds (cfg : LoggerConfig) (s : Sink) (hs : s ∈ buildCores cfg) :
    s.threshold = Level.toZapCoreLevel cfg.Level := by
  unfold buildCores at hs
  rw [List.mem_append] at hs
  rcases hs with hs | hs <;>
    (split at hs
     · simp at hs; rw [hs]
     · cases hs)

theorem resolvePath_err (env : FsEnv) (cfg : LoggerConfig) (e : BuildErr)
    (h : resolvePath env cfg = .error e) : e = .getwdFailed := by
  unfold resolvePath at h
  split at h
  · cases hg : env.getwd with
    | none => rw [hg] at h; cases h; rfl
    | some wd => rw [hg] at h; cases h
  · cases h

theorem NewLogger_ok_shape (env : FsEnv) (cfg : LoggerConfig) (lg : BuiltLogger)
    (h : NewLogger env cfg = .ok lg) :
    ∃ c, lg = { sinks := buildCores c,
                sampler := if c.Sampling then
                    some { tickSeconds := 1, first := 100, thereafter := 100 }
                  else none } ∧
      c.Sampling = cfg.Sampling ∧
      (c.Output = "console" ∨ c.Output = "file" ∨ c.Output = "both") ∧
      c.Level = (normalizeLevel cfg).Level := by
  unfold NewLogger at h
  dsimp only at h
  split at h
  · cases h
  · split at h
    · cases h
    · rename_i c heq
      split at h
      · cases h
      · split at h
        · cases h
        · cases h
          have hres := resolvePath_fields _ _ _ heq
          have hrot := rotationDefaults_fields (normalizeFormat (normalizeOutput (normalizeLevel cfg)))
          have hfmt := normalizeFormat_fields (normalizeOutput (normalizeLevel cfg))
          have hout := normalizeOutput_fields (normalizeLevel cfg)
          have hlev := normalizeLevel_fields cfg
          refine ⟨c, rfl, ?_, ?_, ?_⟩
          · rw [hres.2.2.2.1, hrot.2.2.2.2, hfmt.2.2.2, hout.2.2.2, hlev.2.2.2]
          · rw [hres.2.1, hrot.2.1, hfmt.2.1]
            exact normalizeOutput_valid (normalizeLevel cfg)
          · rw [hres.1, hrot.1, hfmt.1, hout.1]

theorem NewLogger_ne_noValidOutput (env : FsEnv) (cfg : LoggerConfig) :
    NewLogger env cfg ≠ .error .noValidOutput := by
  intro h
  unfold NewLogger at h
  dsimp only at h
  split at h
  · simp at h
  · split at h
    · rename_i e heq
      have := resolvePath_err _ _ _ heq
      simp at h
      rw [h] at this
      cases this
    · rename_i c heq
      split at h
      · simp at h
      · split at h
        · rename_i hlen
          have hres := resolvePath_fields _ _ _ heq
          have hrot := rotationDefaults_fields (normalizeFormat (normalizeOutput (normalizeLevel cfg)))
          have hfmt := normalizeFormat_fields (normalizeOutput (normalizeLevel cfg))
          have hvalid : c.Output = "console" ∨ c.Output = "file" ∨ c.Output = "both" := by
            rw [hres.2.1, hrot.2.1, hfmt.2.1]
            exact normalizeOutput_valid (normalizeLevel cfg)
          have := buildCores_len c hvalid
          omega
        · cases h

theorem NewLogger_ok_of (env : FsEnv) (cfg : LoggerConfig)
    (hw : env.getwd.isSome) (hm : ∀ d, env.mkdirOk d = true)
    (hnot : ¬((cfg.Output = "file" ∨ cfg.Output = "both") ∧ cfg.FilePath = "")) :
    ∃ lg, NewLogger env cfg = .ok lg ∧ 1 ≤ lg.sinks.length := by
  have hfmt := normalizeFormat_fields (normalizeOutput (normalizeLevel cfg))
  have hout := normalizeOutput_fields (normalizeLevel cfg)
  have hlev := normalizeLevel_fields cfg
  have h1 : ¬(((normalizeFormat (normalizeOutput (normalizeLevel cfg))).Output = "file" ∨
      (normalizeFormat (normalizeOutput (normalizeLevel cfg))).Output = "both") ∧
      (normalizeFormat (normalizeOutput (normalizeLevel cfg))).FilePath = "") := by
    rintro ⟨hfile, hempty⟩
    rw [hfmt.2.1] at hfile
    have hraw : cfg.Output = (normalizeOutput (normalizeLevel cfg)).Output := by
      rw [← hlev.1]
      exact normalizeOutput_fileish (normalizeLevel cfg) hfile
    rw [hfmt.2.2.1, hout.2.2.1, hlev.2.2.1] at hempty
    exact hnot ⟨by rw [hraw]; exact hfile, hempty⟩
  obtain ⟨c3, hres⟩ := resolvePath_ok env
    (rotationDefaults (normalizeFormat (normalizeOutput (normalizeLevel cfg)))) hw
  have hvalid : c3.Output = "console" ∨ c3.Output = "file" ∨ c3.Output = "both" := by
    rw [(resolvePath_fields _ _ _ hres).2.1,
      (rotationDefaults_fields (normalizeFormat (normalizeOutput (normalizeLevel cfg)))).2.1,
      hfmt.2.1]
    exact normalizeOutput_valid (normalizeLevel cfg)
  have hmk : ¬(c3.FilePath ≠ "" ∧ env.mkdirOk (dirOf c3.FilePath) = false) := by
    rintro ⟨-, hfalse⟩
    rw [hm (dirOf c3.FilePath)] at hfalse
    cases hfalse
  have hlen := buildCores_len c3 hvalid
  have hlen0 : ¬((buildCores c3).length = 0) := by omega
  refine ⟨⟨buildCores c3,
    if c3.Sampling then some { tickSeconds := 1, first := 100, thereafter := 100 } else none⟩,
    ?_, hlen⟩
  unfold NewLogger
  dsimp only
  rw [if_neg h1, hres]
  dsimp only
  rw [if_neg hmk, if_neg hlen0]

theorem normalizeOutput_keep (cfg : LoggerConfig)
    (h : cfg.Output = "console" ∨ cfg.Output = "file" ∨ cfg.Output = "both") :
    (normalizeOutput cfg).Output = cfg.Output := by
  unfold normalizeOutput
  rw [if_pos h]

theorem NewLogger_err_filePath (env : FsEnv) (cfg : LoggerConfig)
    (h : (cfg.Output = "file" ∨ cfg.Output = "both") ∧ cfg.FilePath = "") :
    NewLogger env cfg = .error .filePathRequired := by
  have hlev := normalizeLevel_fields cfg
  have hout := normalizeOutput_fields (normalizeLevel cfg)
  have hfmt := normalizeFormat_fields (normalizeOutput (normalizeLevel cfg))
  have hk : (normalizeOutput (normalizeLevel cfg)).Output = cfg.Output := by
    rw [normalizeOutput_keep (normalizeLevel cfg) (by rw [hlev.1]; exact Or.inr h.1), hlev.1]
  have hcond : (((normalizeFormat (normalizeOutput (normalizeLevel cfg))).Output = "file" ∨
      (normalizeFormat (normalizeOutput (normalizeLevel cfg))).Output = "both") ∧
      (normalizeFormat (normalizeOutput (normalizeLevel cfg))).FilePath = "") := by
    rw [hfmt.2.1, hk, hfmt.2.2.1, hout.2.2.1, hlev.2.2.1]
    exact h
  unfold NewLogger
  dsimp only
  rw [if_pos hcond]

theorem validate_err_iff (c : LoggerConfig) :
    (LoggerConfig.validate c).2 = some .filePathRequired ↔
      ((c.Output = "file" ∨ c.Output = "both") ∧ c.FilePath = "") := by
  unfold LoggerConfig.validate
  dsimp only
  split
  · rename_i hc
    simpa using hc
  · rename_i hc
    simpa using hc

theorem executeHooks_calls (hooks : List LogHook) (lv : Level) (m : String)
    (fs : List LogField) :
    (executeHooks hooks lv m fs).filter Event.isHookCall =
      hooks.map (fun h => Event.hookCall h.id lv m fs) := by
  induction hooks with
  | nil => rfl
  | cons h hs ih =>
    unfold executeHooks
    cases hr : h.res lv m fs <;>
      simp [hr, List.filter_append, Event.isHookCall, ih]

theorem executeHooks_no_sink (hooks : List LogHook) (lv : Level) (m : String)
    (fs : List LogField) :
    ∀ e ∈ executeHooks hooks lv m fs, e.isSinkWrite = false := by
  induction hooks with
  | nil => intro e he; cases he
  | cons h hs ih =>
    intro e he
    unfold executeHooks at he
    rcases List.mem_cons.1 he with rfl | he2
    · rfl
    · rcases List.mem_append.1 he2 with he3 | he3
      · cases hr : h.res lv m fs <;> rw [hr] at he3
        · cases he3
        · rcases List.mem_singleton.1 he3 with rfl
          rfl
      · exact ih e he3

theorem executeHooks_errs (hooks : List LogHook) (lv : Level) (m : String)
    (fs : List LogField) :
    errReportsOf (executeHooks hooks lv m fs) =
      hooks.filterMap (fun h => (h.res lv m fs).map hookErrLine) := by
  induction hooks with
  | nil => rfl
  | cons h hs ih =>
    unfold executeHooks
    unfold errReportsOf at ih ⊢
    cases hr : h.res lv m fs <;>
      simp [hr, List.filterMap_append, ih]

theorem writeToSinks_events (sinks : List Sink) (lv : Level) (m : String)
    (p : Payload) : ∀ e ∈ writeToSinks sinks lv m p,
      e.isHookCall = false ∧ e.isSinkWrite = true ∧ Event.sinkPayloadIs p e = true := by
  intro e he
  unfold writeToSinks at he
  rcases List.mem_map.1 he with ⟨s, -, rfl⟩
  exact ⟨rfl, rfl, by simp [Event.sinkPayloadIs]⟩

theorem coreDeliver_events (lg : BuiltLogger) (ss : SamplerState) (now : Nat)
    (lv : Level) (m : String) (p : Payload) :
    ∀ e ∈ (coreDeliver lg ss now lv m p).1,
      e.isHookCall = false ∧ e.isSinkWrite = true ∧ Event.sinkPayloadIs p e = true := by
  intro e he
  unfold coreDeliver at he
  rcases hs : lg.sampler with - | prm <;> rw [hs] at he
  · exact writeToSinks_events _ _ _ _ e he
  · dsimp only at he
    split at he
    · exact writeToSinks_events _ _ _ _ e he
    · cases he

theorem deliverPart_events (st : GlobalState) (v : Bool) (now : Nat) (lv : Level)
    (m : String) (p : Payload) :
    ∀ e ∈ (deliverPart st v now lv m p).trace,
      e.isHookCall = false ∧ e.isSinkWrite = true ∧ Event.sinkPayloadIs p e = true := by
  intro e he
  unfold deliverPart at he
  dsimp only at he
  split at he
  · cases he
  · exact coreDeliver_events _ _ _ _ _ _ e he

theorem NewLogger_default (env : FsEnv) : NewLogger env defaultConfig = .ok defaultBuilt := rfl

theorem Logger_of_some (st : GlobalState) (lg : BuiltLogger)
    (h : st.globalLogger = some lg) : Logger st = (st, some lg) := by
  simp [Logger, h]

theorem Logger_none_once (st : GlobalState) (h1 : st.globalLogger = none)
    (h2 : st.onceDone = true) : Logger st = (st, none) := by
  simp [Logger, h1, h2]

theorem Logger_implicit (st : GlobalState) (h1 : st.globalLogger = none)
    (h2 : st.onceDone = false) :
    Logger st = ({ st with globalLogger := some defaultBuilt,
                           globalSugar := some defaultBuilt,
                           onceDone := true, builds := st.builds + 1 },
                 some defaultBuilt) := by
  simp [Logger, h1, h2, NewLogger_default]

theorem deliverPart_crashed (st : GlobalState) (v : Bool) (now : Nat) (lv : Level)
    (m : String) (p : Payload)
    (hwf : st.globalSugar = none ↔ st.globalLogger = none) :
    ((deliverPart st v now lv m p).crashed = true ↔
      (st.onceDone = true ∧ st.globalLogger = none)) := by
  rcases hgl : st.globalLogger with - | lg
  · cases ho : st.onceDone
    · cases v
      · unfold deliverPart
        rw [if_neg (by simp), Logger_implicit st hgl ho]
        simp [ho]
      · unfold deliverPart
        rw [if_pos rfl]
        unfold Sugar
        rw [Logger_implicit st hgl ho]
        simp [ho]
    · cases v
      · unfold deliverPart
        rw [if_neg (by simp), Logger_none_once st hgl ho]
        simp [ho, hgl]
      · unfold deliverPart
        rw [if_pos rfl]
        unfold Sugar
        rw [Logger_none_once st hgl ho]
        have hgs : st.globalSugar = none := hwf.2 hgl
        simp [ho, hgl, hgs]
  · have hgs : st.globalSugar ≠ none := by
      intro hc
      rw [hwf.1 hc] at hgl
      cases hgl
    rcases hgs2 : st.globalSugar with - | sg
    · exact absurd hgs2 hgs
    · cases v
      · unfold deliverPart
        rw [if_neg (by simp), Logger_of_some st lg hgl]
        simp [hgl]
      · unfold deliverPart
        rw [if_pos rfl]
        unfold Sugar
        rw [Logger_of_some st lg hgl]
        simp [hgl, hgs2]

theorem stepOp_builds (st : GlobalState) (op : Op)
    (h : (st.onceDone = false → st.builds = 0) ∧ st.builds ≤ 1) :
    ((stepOp st op).onceDone = false → (stepOp st op).builds = 0) ∧
      (stepOp st op).builds ≤ 1 := by
  cases op with
  | init cfg =>
    cases ho : st.onceDone
    · cases hN : NewLogger st.env cfg <;>
        simp_all [stepOp, InitLogger, ho, hN]
    · simp_all [stepOp, InitLogger, ho]
  | resolve =>
    rcases hgl : st.globalLogger with - | lg
    · cases ho : st.onceDone
      · simp_all [stepOp, Logger_implicit st hgl ho]
      · simp_all [stepOp, Logger_none_once st hgl ho]
    · simp_all [stepOp, Logger_of_some st lg hgl]
  | sugarResolve =>
    rcases hgl : st.globalLogger with - | lg
    · cases ho : st.onceDone
      · simp_all [stepOp, Sugar, Logger_implicit st hgl ho]
      · simp_all [stepOp, Sugar, Logger_none_once st hgl ho]
    · simp_all [stepOp, Sugar, Logger_of_some st lg hgl]

theorem runOps_builds (ops : List Op) (st : GlobalState)
    (h : (st.onceDone = false → st.builds = 0) ∧ st.builds ≤ 1) :
    (runOps st ops).builds ≤ 1 := by
  induction ops generalizing st with
  | nil => exact h.2
  | cons op ops ih => exact ih (stepOp st op) (stepOp_builds st op h)

theorem stepOp_stable (st : GlobalState) (op : Op) (lg : BuiltLogger)
    (h1 : st.onceDone = true) (h2 : st.globalLogger = some lg) :
    stepOp st op = st := by
  cases op with
  | init cfg => simp [stepOp, InitLogger, h1]
  | resolve => simp [stepOp, Logger_of_some st lg h2]
  | sugarResolve => simp [stepOp, Sugar, Logger_of_some st lg h2]

theorem runOps_stable (ops : List Op) (st : GlobalState) (lg : BuiltLogger)
    (h1 : st.onceDone = true) (h2 : st.globalLogger = some lg) :
    runOps st ops = st := by
  induction ops with
  | nil => rfl
  | cons op ops ih =>
    unfold runOps
    rw [stepOp_stable st op lg h1 h2]
    exact ih

/-- C1: for every LoggerConfig with output "file" or "both" and an empty
filePath, `validate` and `NewLogger` (build) fail with the ConfigError
`filePathRequired`; for every other configuration, against a filesystem
where path resolution and directory creation succeed, build succeeds and
constructs at least one sink; and the "no valid log output configured"
branch is unreachable for every input. -/
theorem C1_validate_build (cfg : LoggerConfig) :
    ((cfg.Output = "file" ∨ cfg.Output = "both") ∧ cfg.FilePath = "" →
      (LoggerConfig.validate cfg).2 = some .filePathRequired ∧
      ∀ env, NewLogger env cfg = .error .filePathRequired) ∧
    (∀ env : FsEnv, env.getwd.isSome → (∀ d, env.mkdirOk d = true) →
      ¬((cfg.Output = "file" ∨ cfg.Output = "both") ∧ cfg.FilePath = "") →
      ∃ lg, NewLogger env cfg = .ok lg ∧ 1 ≤ lg.sinks.length) ∧
    (∀ env, NewLogger env cfg ≠ .error .noValidOutput) :=
  ⟨fun h => ⟨(validate_err_iff cfg).2 h, fun env => NewLogger_err_filePath env cfg h⟩,
   fun env hw hm hnot => NewLogger_ok_of env cfg hw hm hnot,
   fun env => NewLogger_ne_noValidOutput env cfg⟩

/-- Witness for C1 at concrete configurations: `{defaultConfig with
Output := "file"}` (empty path) fails in both validate and build, and
`defaultConfig` builds one sink and is not the unreachable error. -/
theorem C1_validate_build_witness :
    (LoggerConfig.validate { defaultConfig with Output := "file" }).2 =
        some .filePathRequired ∧
    NewLogger benignFs { defaultConfig with Output := "file" } =
        .error .filePathRequired ∧
    (∃ lg, NewLogger benignFs defaultConfig = .ok lg ∧ 1 ≤ lg.sinks.length) ∧
    NewLogger benignFs defaultConfig ≠ .error .noValidOutput :=
  ⟨((C1_validate_build { defaultConfig with Output := "file" }).1 (by decide)).1,
   ((C1_validate_build { defaultConfig with Output := "file" }).1 (by decide)).2 benignFs,
   (C1_validate_build defaultConfig).2.1 benignFs (by decide) (fun d => rfl) (by decide),
   (C1_validate_build defaultConfig).2.2 benignFs⟩

/-- C2 (failing evaluation): "warn" and "panic" are valid levels, yet
building with them yields a sink whose threshold is the info zap level,
not the configured one — the string-typed range check
`cfg.Level < DebugLevel || cfg.Level > FatalLevel` compares
lexicographically, and "warn" > "fatal", "panic" > "fatal". -/
theorem C2_valid_level_clamped :
    Level.valid WarnLevel = true ∧ Level.valid PanicLevel = true ∧
    goStrLt FatalLevel WarnLevel = true ∧ goStrLt FatalLevel PanicLevel = true ∧
    (NewLogger benignFs { defaultConfig with Level := WarnLevel }).toOption.map
        (fun lg => lg.sinks.map (fun s => s.threshold)) = some [zapInfoLevel] ∧
    (NewLogger benignFs { defaultConfig with Level := PanicLevel }).toOption.map
        (fun lg => lg.sinks.map (fun s => s.threshold)) = some [zapInfoLevel] ∧
    Level.toZapCoreLevel WarnLevel ≠ zapInfoLevel ∧
    Level.toZapCoreLevel PanicLevel ≠ zapInfoLevel := by
  refine ⟨by decide, by decide, by decide, by decide, by rfl, by rfl, by decide, by decide⟩

theorem deliverPart_no_hookCalls (st : GlobalState) (v : Bool) (now : Nat)
    (lv : Level) (m : String) (p : Payload) :
    (deliverPart st v now lv m p).trace.filter Event.isHookCall = [] := by
  rw [List.filter_eq_nil_iff]
  intro e he
  simp [(deliverPart_events st v now lv m p e he).1]

/-- C3 (as amended): hook dispatch runs synchronously and before any sink
write for the typed-field facades (Debug/Info/Warn/Error/Panic/Fatal via
`logWithFields`), each registered hook exactly once in registration
order; but the key-value (`*w`), printf (`*f`) and context-bound (`*Ctx`)
facades never invoke hook dispatch at all. -/
theorem C3_hook_dispatch_scope :
    (∀ (st : GlobalState) (now : Nat) (lv : Level) (m : String) (fs : List LogField),
      (logWithFields st now lv m fs).trace =
        executeHooks st.hooks lv m fs ++ (deliverPart st false now lv m (.fields fs)).trace) ∧
    (∀ hooks lv m fs, (executeHooks hooks lv m fs).filter Event.isHookCall =
        hooks.map (fun h => Event.hookCall h.id lv m fs)) ∧
    (∀ hooks lv m fs, ∀ e ∈ executeHooks hooks lv m fs, e.isSinkWrite = false) ∧
    (∀ st now lv m kvs, (sugarLogw st now lv m kvs).trace.filter Event.isHookCall = []) ∧
    (∀ st now lv f args, (sugarLogf st now lv f args).trace.filter Event.isHookCall = []) ∧
    (∀ st now ctx lv m fs, (ctxLog st now ctx lv m fs).trace.filter Event.isHookCall = []) ∧
    (∀ st now ctx lv m kvs, (ctxLogw st now ctx lv m kvs).trace.filter Event.isHookCall = []) ∧
    (∀ st now ctx lv f args, (ctxLogf st now ctx lv f args).trace.filter Event.isHookCall = []) :=
  ⟨fun _ _ _ _ _ => rfl,
   executeHooks_calls,
   executeHooks_no_sink,
   fun st now lv m kvs => deliverPart_no_hookCalls st true now lv m (.kvs [] kvs),
   fun st now lv f args => deliverPart_no_hookCalls st true now lv f (.formatted [] f args),
   fun st now ctx lv m fs =>
     deliverPart_no_hookCalls st false now lv m (.fields (contextFields ctx ++ fs)),
   fun st now ctx lv m kvs =>
     deliverPart_no_hookCalls st false now lv m (.kvs (contextFields ctx) kvs),
   fun st now ctx lv f args =>
     deliverPart_no_hookCalls st false now lv f (.formatted (contextFields ctx) f args)⟩

/-- Witness for C3 at a concrete input: the sole event `executeHooks`
produces for one registered hook is not a sink write. -/
theorem C3_hook_dispatch_scope_witness :
    (Event.hookCall 0 InfoLevel "m" []).isSinkWrite = false :=
  C3_hook_dispatch_scope.2.2.1 [okHook] InfoLevel "m" []
    (Event.hookCall 0 InfoLevel "m" []) (by simp [executeHooks, okHook])

/-- C3 counterexample: with one registered hook and an installed logger,
an `Infow` key-value call writes to the sink but produces no hook
invocation, and the `InfoCtx` and `Infof` facades produce none either —
refuting that hooks observe every call through every facade. -/
theorem C3_hooks_not_on_every_facade :
    (InitLogger (initialState benignFs [okHook]) defaultConfig).1.hooks.length = 1 ∧
    ((Zlog.Infow (InitLogger (initialState benignFs [okHook]) defaultConfig).1
        0 "m" []).trace.filter Event.isHookCall = []) ∧
    (((Zlog.Infow (InitLogger (initialState benignFs [okHook]) defaultConfig).1
        0 "m" []).trace.filter Event.isSinkWrite).length = 1) ∧
    ((Zlog.Infof (InitLogger (initialState benignFs [okHook]) defaultConfig).1
        0 "m" []).trace.filter Event.isHookCall = []) ∧
    ((Zlog.InfoCtx (InitLogger (initialState benignFs [okHook]) defaultConfig).1
        0 ⟨none, none, none⟩ "m" []).trace.filter Event.isHookCall = []) := by
  refine ⟨rfl, by decide, by decide, by decide, by decide⟩

/-- C4: across any sequence of `InitLogger` and `Logger`/`Sugar` calls
from a fresh process state, `NewLogger` executes at most once in total;
once the `Once` has fired, `InitLogger` is a no-op returning nil, and
once an instance is installed every subsequent operation leaves the
state unchanged and `Logger`/`Sugar` return that same instance. -/
theorem C4_build_at_most_once :
    (∀ (env : FsEnv) (hooks : List LogHook) (ops : List Op),
      (runOps (initialState env hooks) ops).builds ≤ 1) ∧
    (∀ st cfg, st.onceDone = true → InitLogger st cfg = (st, none)) ∧
    (∀ st lg, st.onceDone = true → st.globalLogger = some lg →
      (∀ ops, runOps st ops = st) ∧ Logger st = (st, some lg) ∧
        Sugar st = (st, st.globalSugar)) :=
  ⟨fun _ hooks ops => runOps_builds ops _ ⟨fun _ => rfl, by simp [initialState]⟩,
   fun st cfg h => by simp [InitLogger, h],
   fun st lg h1 h2 =>
     ⟨fun ops => runOps_stable ops st lg h1 h2,
      Logger_of_some st lg h2,
      by simp [Sugar, Logger_of_some st lg h2]⟩⟩

/-- Witness for C4 on a concrete call sequence: an explicit init, a
failed re-init, and resolver calls still build exactly once, the second
init is a no-op, and the resolver returns the installed instance. -/
theorem C4_build_at_most_once_witness :
    (runOps (initialState benignFs [])
      [.init defaultConfig, .resolve, .init { defaultConfig with Output := "file" },
       .sugarResolve]).builds ≤ 1 ∧
    InitLogger (InitLogger (initialState benignFs []) defaultConfig).1
        { defaultConfig with Output := "file" } =
      ((InitLogger (initialState benignFs []) defaultConfig).1, none) ∧
    Logger (InitLogger (initialState benignFs []) defaultConfig).1 =
      ((InitLogger (initialState benignFs []) defaultConfig).1, some defaultBuilt) :=
  ⟨C4_build_at_most_once.1 benignFs []
     [.init defaultConfig, .resolve, .init { defaultConfig with Output := "file" },
      .sugarResolve],
   C4_build_at_most_once.2.1 (InitLogger (initialState benignFs []) defaultConfig).1
     { defaultConfig with Output := "file" } (by decide),
   (C4_build_at_most_once.2.2 (InitLogger (initialState benignFs []) defaultConfig).1
     defaultBuilt (by decide) (by decide)).2.1⟩

/-- C5 counterexample: after a failed explicit initialization (file
output, empty path), the `Once` is consumed; `Logger()` then returns the
still-empty slot and a typed-field or key-value facade call dereferences
the absent (nil) logger — the call crashes rather than succeeding with
no output. -/
theorem C5_crash_after_failed_init :
    (InitLogger (initialState benignFs []) { defaultConfig with Output := "file" }).2 =
        some .filePathRequired ∧
    (Zlog.Info (InitLogger (initialState benignFs [])
        { defaultConfig with Output := "file" }).1 0 "m" []).crashed = true ∧
    (Zlog.Infow (InitLogger (initialState benignFs [])
        { defaultConfig with Output := "file" }).1 0 "m" []).crashed = true := by
  refine ⟨by decide, by decide, by decide⟩

/-- C5 (as amended): the implicit default build always succeeds, and —
for states whose sugar slot is empty exactly when the logger slot is — a
facade call dereferences nil exactly when the `Once` has fired while the
logger slot stayed empty, i.e. exactly after a failed explicit
initialization; in every other case the call returns without crashing. -/
theorem C5_crash_iff_failed_explicit_init :
    (∀ env, NewLogger env defaultConfig = .ok defaultBuilt) ∧
    (∀ st v now lv m p, (st.globalSugar = none ↔ st.globalLogger = none) →
      ((deliverPart st v now lv m p).crashed = true ↔
        st.onceDone = true ∧ st.globalLogger = none)) ∧
    (∀ st now lv m fs, (st.globalSugar = none ↔ st.globalLogger = none) →
      ((logWithFields st now lv m fs).crashed = true ↔
        st.onceDone = true ∧ st.globalLogger = none)) :=
  ⟨NewLogger_default,
   fun st v now lv m p hwf => deliverPart_crashed st v now lv m p hwf,
   fun st now lv m fs hwf => deliverPart_crashed st false now lv m (.fields fs) hwf⟩

/-- Witness for C5 at a concrete state: a fresh process state satisfies
the well-formedness hypothesis, and a typed-field call there does not
crash. -/
theorem C5_crash_iff_failed_explicit_init_witness :
    (logWithFields (initialState benignFs []) 0 InfoLevel "m" []).crashed ≠ true := by
  have h := C5_crash_iff_failed_explicit_init.2.2 (initialState benignFs [])
    0 InfoLevel "m" [] (by simp [initialState])
  intro hc
  have := h.1 hc
  simp [initialState] at this


theorem deliverPart_congr (stA stB : GlobalState)
    (hgl : stA.globalLogger = stB.globalLogger)
    (hgs : stA.globalSugar = stB.globalSugar)
    (ho : stA.onceDone = stB.onceDone)
    (henv : stA.env = stB.env)
    (hss : stA.sampState = stB.sampState)
    (v : Bool) (now : Nat) (lv : Level) (m : String) (p : Payload) :
    (deliverPart stA v now lv m p).trace = (deliverPart stB v now lv m p).trace ∧
      (deliverPart stA v now lv m p).crashed = (deliverPart stB v now lv m p).crashed := by
  cases stA with
  | mk glA gsA odA hkA envA ssA bA =>
    cases stB with
    | mk glB gsB odB hkB envB ssB bB =>
      dsimp at hgl hgs ho henv hss
      subst hgl hgs ho henv hss
      rcases glA with - | lg <;> rcases gsA with - | sg <;> rcases odA <;> rcases v <;>
        simp [deliverPart, Logger, Sugar, NewLogger_default]

theorem executeHooks_filter_sink_nil (hooks : List LogHook) (lv : Level) (m : String)
    (fs : List LogField) :
    (executeHooks hooks lv m fs).filter Event.isSinkWrite = [] :=
  List.filter_eq_nil_iff.2 (fun e he => by
    simp [executeHooks_no_sink hooks lv m fs e he])

/-- C6: hook dispatch invokes each registered hook exactly once per log
call, in registration order (on the snapshot taken from the registry); a
hook error is reported on the error stream per erring hook without
stopping the remaining hooks; and neither the hook identities nor their
results affect the records delivered to sinks or the call outcome. -/
theorem C6_hook_dispatch_contract :
    (∀ (hooks : List LogHook) (lv : Level) (m : String) (fs : List LogField),
      (executeHooks hooks lv m fs).filter Event.isHookCall =
        hooks.map (fun h => Event.hookCall h.id lv m fs)) ∧
    (∀ hooks lv m fs, errReportsOf (executeHooks hooks lv m fs) =
        hooks.filterMap (fun h => (h.res lv m fs).map hookErrLine)) ∧
    (∀ (st : GlobalState) (hs : List LogHook) (now : Nat) (lv : Level) (m : String)
        (fs : List LogField),
      ((logWithFields { st with hooks := hs } now lv m fs).trace.filter Event.isSinkWrite =
        (logWithFields st now lv m fs).trace.filter Event.isSinkWrite) ∧
      ((logWithFields { st with hooks := hs } now lv m fs).crashed =
        (logWithFields st now lv m fs).crashed)) := by
  refine ⟨executeHooks_calls, executeHooks_errs, fun st hs now lv m fs => ⟨?_, ?_⟩⟩
  · rw [show (logWithFields { st with hooks := hs } now lv m fs).trace =
        executeHooks hs lv m fs ++
          (deliverPart { st with hooks := hs } false now lv m (.fields fs)).trace from rfl,
      show (logWithFields st now lv m fs).trace =
        executeHooks st.hooks lv m fs ++
          (deliverPart st false now lv m (.fields fs)).trace from rfl,
      List.filter_append, List.filter_append,
      executeHooks_filter_sink_nil, executeHooks_filter_sink_nil,
      (deliverPart_congr { st with hooks := hs } st rfl rfl rfl rfl rfl
        false now lv m (.fields fs)).1]
  · exact (deliverPart_congr { st with hooks := hs } st rfl rfl rfl rfl rfl
      false now lv m (.fields fs)).2

set_option maxHeartbeats 4000000 in
/-- C7: when sampling is enabled the built logger carries the sampler
wrapper with exactly the parameters (1-second tick, first 100, 1 in 100
thereafter); under that policy exactly 109 of 1000 identical same-second
records are admitted; hooks run before the (sampled) sink path, seeing
one event per registered hook on every call; and concretely, 1000
identical same-second `Info` calls against a sampling logger yield 109
sink writes while hooks observe all 1000 calls. -/
theorem C7_sampling_policy :
    (∀ (env : FsEnv) (cfg : LoggerConfig) (lg : BuiltLogger),
      NewLogger env cfg = .ok lg →
        lg.sampler = if cfg.Sampling then
            some { tickSeconds := 1, first := 100, thereafter := 100 }
          else none) ∧
    admittedCount { tickSeconds := 1, first := 100, thereafter := 100 } 1000 = 109 ∧
    (∀ (st : GlobalState) (now : Nat) (lv : Level) (m : String) (fs : List LogField),
      ((logWithFields st now lv m fs).trace.filter Event.isHookCall).length =
        st.hooks.length) ∧
    ((repeatInfo (InitLogger (initialState benignFs [okHook])
        { defaultConfig with Sampling := true }).1 1000).filter
          Event.isSinkWrite).length = 109 ∧
    ((repeatInfo (InitLogger (initialState benignFs [okHook])
        { defaultConfig with Sampling := true }).1 1000).filter
          Event.isHookCall).length = 1000 := by
  refine ⟨?_, by decide, ?_, by decide, by decide⟩
  · intro env cfg lg h
    obtain ⟨c, rfl, hsamp, -, -⟩ := NewLogger_ok_shape env cfg lg h
    rw [← hsamp]
  · intro st now lv m fs
    rw [show (logWithFields st now lv m fs).trace =
        executeHooks st.hooks lv m fs ++
          (deliverPart st false now lv m (.fields fs)).trace from rfl,
      List.filter_append, executeHooks_calls, deliverPart_no_hookCalls]
    simp

/-- Witness for C7 at a concrete input: a sampling-enabled build carries
the (1s, 100, 100) sampler parameters. -/
theorem C7_sampling_policy_witness :
    (NewLogger benignFs { defaultConfig with Sampling := true }).toOption.map
        (fun lg => lg.sampler) =
      some (some { tickSeconds := 1, first := 100, thereafter := 100 }) := by
  have h := C7_sampling_policy.1 benignFs { defaultConfig with Sampling := true }
    { sinks := [{ dest := .console, encoding := .consoleColor,
                  threshold := zapInfoLevel, writer := none }],
      sampler := some { tickSeconds := 1, first := 100, thereafter := 100 } } (by rfl)
  simp only [NewLogger_default]
  rw [show (NewLogger benignFs { defaultConfig with Sampling := true }).toOption =
      some { sinks := [{ dest := .console, encoding := .consoleColor,
                         threshold := zapInfoLevel, writer := none }],
             sampler := some { tickSeconds := 1, first := 100, thereafter := 100 } } from rfl]
  simp [h]

/-- C8: every file sink any build constructs is JSON-encoded regardless
of the configured format, and concretely
`build(\x7boutput:"file", format:"console", filePath:"x.log"\x7d)`
produces exactly one sink — a JSON file sink through the rotating
writer. -/
theorem C8_file_sink_always_json :
    (∀ (env : FsEnv) (cfg : LoggerConfig) (lg : BuiltLogger) (s : Sink),
      NewLogger env cfg = .ok lg → s ∈ lg.sinks → s.dest = .file →
        s.encoding = .json) ∧
    NewLogger benignFs
        { defaultConfig with Output := "file", Format := "console", FilePath := "x.log" } =
      .ok { sinks := [{ dest := .file, encoding := .json, threshold := zapInfoLevel,
                        writer := some { Filename := "/wd/x.log", MaxSize := 100,
                                         MaxBackups := 10, MaxAge := 30,
                                         Compress := true } }],
            sampler := none } := by
  refine ⟨?_, by rfl⟩
  intro env cfg lg s h hs hd
  obtain ⟨c, rfl, -, -, -⟩ := NewLogger_ok_shape env cfg lg h
  exact buildCores_file_json c s hs hd

/-- Witness for C8 at the concrete file-output build. -/
theorem C8_file_sink_always_json_witness :
    Sink.encoding { dest := .file, encoding := .json, threshold := zapInfoLevel,
                    writer := some { Filename := "/wd/x.log", MaxSize := 100,
                                     MaxBackups := 10, MaxAge := 30,
                                     Compress := true } } = .json :=
  C8_file_sink_always_json.1 benignFs
    { defaultConfig with Output := "file", Format := "console", FilePath := "x.log" }
    { sinks := [{ dest := .file, encoding := .json, threshold := zapInfoLevel,
                  writer := some { Filename := "/wd/x.log", MaxSize := 100,
                                   MaxBackups := 10, MaxAge := 30,
                                   Compress := true } }],
      sampler := none }
    _ (by rfl) (by simp) (by rfl)

/-- C9 counterexample: the parser also accepts "warning" and "err",
which lie outside the claim's recognized set (full names plus the
one-letter aliases), so parsing does not fail on every input outside
that set. -/
theorem C9_extra_aliases_accepted :
    claimRecognized "warning" = false ∧
    Level.UnmarshalText "warning" = .ok WarnLevel ∧
    claimRecognized "err" = false ∧
    Level.UnmarshalText "err" = .ok ErrorLevel :=
  ⟨by decide, by rfl, by decide, by rfl⟩

theorem unmarshalText_isOk (s : String) :
    (Level.UnmarshalText s).isOk = goRecognized s := by
  unfold Level.UnmarshalText goRecognized
  dsimp only
  generalize goToLower s = t
  by_cases h1 : t = "debug" ∨ t = "d"
  · rcases h1 with rfl | rfl <;> rfl
  · rw [if_neg h1]
    by_cases h2 : t = "info" ∨ t = "i"
    · rcases h2 with rfl | rfl <;> rfl
    · rw [if_neg h2]
      by_cases h3 : t = "warn" ∨ t = "warning" ∨ t = "w"
      · rcases h3 with rfl | rfl | rfl <;> rfl
      · rw [if_neg h3]
        by_cases h4 : t = "error" ∨ t = "err" ∨ t = "e"
        · rcases h4 with rfl | rfl | rfl <;> rfl
        · rw [if_neg h4]
          by_cases h5 : t = "panic" ∨ t = "p"
          · rcases h5 with rfl | rfl <;> rfl
          · rw [if_neg h5]
            by_cases h6 : t = "fatal" ∨ t = "f"
            · rcases h6 with rfl | rfl <;> rfl
            · rw [if_neg h6]
              push_neg at h1 h2 h3 h4 h5 h6
              simp [Except.isOk, List.contains, h1.1, h1.2, h2.1, h2.2,
                h3.1, h3.2.1, h3.2.2, h4.1, h4.2.1, h4.2.2, h5.1, h5.2, h6.1, h6.2]
              rfl

theorem unmarshalText_err (s : String) (h : goRecognized s = false) :
    Level.UnmarshalText s = .error (.invalidLevel s) := by
  simp [goRecognized, List.contains] at h
  unfold Level.UnmarshalText
  dsimp only
  rw [if_neg (by tauto), if_neg (by tauto), if_neg (by tauto), if_neg (by tauto),
    if_neg (by tauto), if_neg (by tauto)]

/-- C9 (as amended): formatting then parsing is the identity on each of
the six valid levels; parsing succeeds exactly on the recognized set —
the six full names, the extra aliases "warning" and "err", and the
one-letter aliases d,i,w,e,p,f, all case-insensitively — and fails with
the InvalidLevel error carrying the original text on everything else. -/
theorem C9_parse_format_roundtrip :
    (∀ l, Level.valid l = true → Level.UnmarshalText (Level.String l) = .ok l) ∧
    (∀ s, (Level.UnmarshalText s).isOk = goRecognized s) ∧
    (∀ s, goRecognized s = false →
      Level.UnmarshalText s = .error (.invalidLevel s)) := by
  refine ⟨?_, unmarshalText_isOk, unmarshalText_err⟩
  intro l h
  have h6 : ((((l = DebugLevel ∨ l = InfoLevel) ∨ l = WarnLevel) ∨ l = ErrorLevel) ∨
      l = PanicLevel) ∨ l = FatalLevel := by
    simpa [Level.valid] using h
  rcases h6 with ((((rfl | rfl) | rfl) | rfl) | rfl) | rfl <;> rfl

/-- Witness for C9 at concrete inputs: round-trip at "warn", the
InvalidLevel failure at "verbose", and — matching Go `strings.ToLower`
mapping U+0130 to "i" — acceptance of the non-ASCII "İNFO". -/
theorem C9_parse_format_roundtrip_witness :
    Level.UnmarshalText (Level.String WarnLevel) = .ok WarnLevel ∧
    Level.UnmarshalText "verbose" = .error (.invalidLevel "verbose") ∧
    (Level.UnmarshalText "İNFO").isOk = goRecognized "İNFO" ∧
    Level.UnmarshalText "İNFO" = .ok InfoLevel :=
  ⟨C9_parse_format_roundtrip.1 WarnLevel (by decide),
   C9_parse_format_roundtrip.2.2 "verbose" (by decide),
   C9_parse_format_roundtrip.2.1 "İNFO",
   by rfl⟩

/-- C10: in the key-value facades of the later zlog.go variant
(Debugw/Infow/Warnw/Errorw/Panicw/Fatalw), every registered hook is
invoked with an empty (nil) field list — the variadic key/value
arguments reach the sinks as the record payload but are never passed to
the hooks. -/
theorem C10_w_facades_hooks_get_nil :
    (∀ (st : GlobalState) (now : Nat) (lv : Level) (m : String) (kvs : List GoVal),
      ((ZlogV2.logw st now lv m kvs).trace.filter Event.isHookCall =
        st.hooks.map (fun h => Event.hookCall h.id lv m [])) ∧
      (((ZlogV2.logw st now lv m kvs).trace.filter Event.isSinkWrite).all
        (Event.sinkPayloadIs (.kvs [] kvs)) = true)) ∧
    (∀ st now m kvs,
      ZlogV2.Debugw st now m kvs = ZlogV2.logw st now DebugLevel m kvs ∧
      ZlogV2.Infow st now m kvs = ZlogV2.logw st now InfoLevel m kvs ∧
      ZlogV2.Warnw st now m kvs = ZlogV2.logw st now WarnLevel m kvs ∧
      ZlogV2.Errorw st now m kvs = ZlogV2.logw st now ErrorLevel m kvs ∧
      ZlogV2.Panicw st now m kvs = ZlogV2.logw st now PanicLevel m kvs ∧
      ZlogV2.Fatalw st now m kvs = ZlogV2.logw st now FatalLevel m kvs) := by
  refine ⟨fun st now lv m kvs => ⟨?_, ?_⟩,
    fun st now m kvs => ⟨rfl, rfl, rfl, rfl, rfl, rfl⟩⟩
  · rw [show (ZlogV2.logw st now lv m kvs).trace =
      executeHooks st.hooks lv m [] ++
        (deliverPart st true now lv m (.kvs [] kvs)).trace from rfl,
      List.filter_append, executeHooks_calls, deliverPart_no_hookCalls,
      List.append_nil]
  · rw [show (ZlogV2.logw st now lv m kvs).trace =
      executeHooks st.hooks lv m [] ++
        (deliverPart st true now lv m (.kvs [] kvs)).trace from rfl,
      List.filter_append, executeHooks_filter_sink_nil, List.nil_append,
      List.all_eq_true]
    intro e he
    exact ((deliverPart_events st true now lv m (.kvs [] kvs)) e
      (List.mem_of_mem_filter he)).2.2
